import Mathlib

/-!
Verification of the μTRON edge-AI OCR firmware core against its specification.

The definitions below are a shallow embedding of the C sources:
  * `src/src/ai/ai_memory.c`  — fixed-pool bump allocator with leak tracking,
    performance statistics, error recovery;
  * `src/src/tasks/ai_task.c` — OCR pipeline (`ocr_process_frame`,
    `ocr_preprocess_image`, `ocr_detect_text`, `ocr_recognize_text`),
    the inference task cycle and its confidence gating, and the
    consecutive-error recovery trigger.

Machine integers (`uint32_t`) are modelled as `ℕ` with explicit `% 2^32`
wherever the C code can overflow or wrap.  Pointers returned by the
allocator are modelled as byte offsets from the pool base; the null
pointer is offset `0` (a real payload pointer is always at least
`HEADER_SIZE`, so this is unambiguous).  Memory holding block headers is
modelled as an association list from header offset to header contents,
newest write first, exactly mirroring what the C code reads back at each
offset (a later header write at the same offset shadows the earlier one,
as in real memory).
-/

/-- Constant `MEMORY_MAGIC` from ai_memory.c line 33. -/
def MEMORY_MAGIC : ℕ := 0xABCDEF01

/-- Value of `sizeof(memory_block_t)` on the 32-bit STM32 target: four 4-byte fields
(`magic`, `size`, `timestamp`, `next`) followed by the flexible payload. -/
def HEADER_SIZE : ℕ := 16

/-- Constant `AI_MEMORY_POOL_SIZE = NPU_MAX_MEMORY_BYTES = 2621440` (ai_task.h). -/
def AI_MEMORY_POOL_SIZE : ℕ := 2621440

/-- Modulus of the 32-bit unsigned arithmetic used throughout the C code. -/
def U32 : ℕ := 4294967296

/-- Unsigned 32-bit subtraction `a - b` (wraps modulo `2^32`). -/
def u32sub (a b : ℕ) : ℕ := (a % U32 + (U32 - b % U32)) % U32

/-- A `memory_block_t` header as written to the pool (the `next` pointer is
represented by the position of the owning offset in `PoolState.blocks`). -/
structure MemHeader where
  magic : ℕ
  size : ℕ
  timestamp : ℕ
deriving DecidableEq, Repr

/-- The allocator state: the `ai_memory_pool_t` statistics, the
`allocated_blocks` list (header offsets, most recently allocated first,
mirroring head insertion in C), and the header bytes currently stored in
the pool, as an association list keyed by header offset (newest write
first; `List.lookup` returns the newest, exactly like reading memory). -/
structure PoolState where
  allocatedSize : ℕ
  peakUsage : ℕ
  allocationCount : ℕ
  freeCount : ℕ
  leakCount : ℕ
  blocks : List ℕ
  headers : List (ℕ × MemHeader)
deriving DecidableEq, Repr

/-- State established by `ai_memory_init` (ai_memory.c lines 46-68). -/
def initState : PoolState :=
  { allocatedSize := 0, peakUsage := 0, allocationCount := 0,
    freeCount := 0, leakCount := 0, blocks := [], headers := [] }

/-- Alignment `(size + MEMORY_ALIGN - 1) & ~(MEMORY_ALIGN - 1)` on `uint32_t`
(ai_memory.c line 80): clearing the low three bits is division and
multiplication by 8; the addition wraps modulo `2^32`. -/
def alignUp (size : ℕ) : ℕ := (size + 7) % U32 / 8 * 8

/-- The header currently stored at offset `off` (what the C code reads back
through a `memory_block_t *` at `pool_start + off`). -/
def hdrAt (st : PoolState) (off : ℕ) : Option MemHeader := st.headers.lookup off

/-- The `magic` field read at header offset `off`; unwritten pool memory is
zero-initialised (static storage), hence the default `0`. -/
def magicAt (st : PoolState) (off : ℕ) : ℕ := (hdrAt st off).elim 0 MemHeader.magic

/-- The `size` field read at header offset `off`. -/
def sizeAt (st : PoolState) (off : ℕ) : ℕ := (hdrAt st off).elim 0 MemHeader.size

/-- The `timestamp` field read at header offset `off`. -/
def tsAt (st : PoolState) (off : ℕ) : ℕ := (hdrAt st off).elim 0 MemHeader.timestamp

/-- Total size `sizeof(memory_block_t) + block->size` on `uint32_t`, as recomputed by
`ai_memory_free` (ai_memory.c line 160). -/
def totalAt (st : PoolState) (off : ℕ) : ℕ := (HEADER_SIZE + sizeAt st off) % U32

/-- Function `ai_memory_alloc` (ai_memory.c lines 70-119).  Returns the payload
pointer (offset) or `none` for `NULL`, together with the new pool state.
`tick` is the value of `hal_get_tick()` stamped into the header. -/
def ai_memory_alloc (st : PoolState) (size tick : ℕ) : Option ℕ × PoolState :=
  if size = 0 then (none, st)
  else
    let sz := alignUp size
    let total := (HEADER_SIZE + sz) % U32
    if AI_MEMORY_POOL_SIZE < (st.allocatedSize + total) % U32 then (none, st)
    else
      let off := st.allocatedSize
      let newAS := (st.allocatedSize + total) % U32
      (some (off + HEADER_SIZE),
        { allocatedSize := newAS
          peakUsage := if st.peakUsage < newAS then newAS else st.peakUsage
          allocationCount := (st.allocationCount + 1) % U32
          freeCount := st.freeCount
          leakCount := st.leakCount
          blocks := off :: st.blocks
          headers := (off, ⟨MEMORY_MAGIC, sz, tick % U32⟩) :: st.headers })

/-- Function `ai_memory_free` (ai_memory.c lines 121-171).  `ptr` is the payload
offset (`0` is `NULL`).  A pointer below `HEADER_SIZE` would place the
header before the pool, where the magic test reads non-magic bytes, so it
takes the corruption path.  On a valid free the block's list entry is
unlinked (first occurrence, i.e. the most recent allocation at that
address), statistics are updated, and the header's magic is zeroed in
place (size and timestamp are left as they were). -/
def ai_memory_free (st : PoolState) (ptr : ℕ) : PoolState :=
  if ptr = 0 then st
  else if ptr < HEADER_SIZE then
    { st with leakCount := (st.leakCount + 1) % U32 }
  else
    let off := ptr - HEADER_SIZE
    if magicAt st off ≠ MEMORY_MAGIC then
      { st with leakCount := (st.leakCount + 1) % U32 }
    else if off ∈ st.blocks then
      { st with
        allocatedSize := (st.allocatedSize + (U32 - totalAt st off)) % U32
        freeCount := (st.freeCount + 1) % U32
        blocks := st.blocks.erase off
        headers := (off, ⟨0, sizeAt st off, tsAt st off⟩) :: st.headers }
    else
      { st with leakCount := (st.leakCount + 1) % U32 }

/-- The `while (current)` walk of `ai_memory_check_leaks` (ai_memory.c
lines 192-200): counts the visited blocks whose age
`current_time - current->timestamp` (32-bit subtraction) exceeds 30000 ms. -/
def leakWalk (st : PoolState) (now : ℕ) : List ℕ → ℕ
  | [] => 0
  | off :: rest =>
      (if 30000 < u32sub now (tsAt st off) then 1 else 0) + leakWalk st now rest

/-- Function `ai_memory_check_leaks` (ai_memory.c lines 186-204): walks the
allocated-block list, counts stale blocks, adds the count to the pool's
leak counter, and returns the count.  Nothing is freed. -/
def ai_memory_check_leaks (st : PoolState) (now : ℕ) : ℕ × PoolState :=
  let n := leakWalk st now st.blocks
  (n, { st with leakCount := (st.leakCount + n) % U32 })

/-- One external call into the allocator. -/
inductive MemOp where
  | alloc (size tick : ℕ)
  | free (ptr : ℕ)
deriving DecidableEq, Repr

/-- The state transition of a single allocator call. -/
def memStep (st : PoolState) (op : MemOp) : PoolState :=
  match op with
  | .alloc size tick => (ai_memory_alloc st size tick).2
  | .free ptr => ai_memory_free st ptr

/-- Run a sequence of allocator calls. -/
def runOps (st : PoolState) (ops : List MemOp) : PoolState := ops.foldl memStep st

/-! Branch equations for the allocator, used throughout the proofs. -/

/-- The pool state after a successful allocation. -/
def allocResult (st : PoolState) (size tick : ℕ) : PoolState :=
  { allocatedSize := (st.allocatedSize + (HEADER_SIZE + alignUp size) % U32) % U32
    peakUsage :=
      if st.peakUsage < (st.allocatedSize + (HEADER_SIZE + alignUp size) % U32) % U32
      then (st.allocatedSize + (HEADER_SIZE + alignUp size) % U32) % U32 else st.peakUsage
    allocationCount := (st.allocationCount + 1) % U32
    freeCount := st.freeCount
    leakCount := st.leakCount
    blocks := st.allocatedSize :: st.blocks
    headers := (st.allocatedSize, ⟨MEMORY_MAGIC, alignUp size, tick % U32⟩) :: st.headers }

/-- The pool state after a valid free of the block at header offset `off`. -/
def freeResult (st : PoolState) (off : ℕ) : PoolState :=
  { st with
    allocatedSize := (st.allocatedSize + (U32 - totalAt st off)) % U32
    freeCount := (st.freeCount + 1) % U32
    blocks := st.blocks.erase off
    headers := (off, ⟨0, sizeAt st off, tsAt st off⟩) :: st.headers }

/-- The pool state after a rejected free (corruption/leak path). -/
def leakBump (st : PoolState) : PoolState :=
  { st with leakCount := (st.leakCount + 1) % U32 }

theorem alloc_zero (st : PoolState) (tick : ℕ) : ai_memory_alloc st 0 tick = (none, st) := by
  simp [ai_memory_alloc]

theorem alloc_fail (st : PoolState) (size tick : ℕ) (hsz : size ≠ 0)
    (hcap : AI_MEMORY_POOL_SIZE < (st.allocatedSize + (HEADER_SIZE + alignUp size)) % U32) :
    ai_memory_alloc st size tick = (none, st) := by
  simp [ai_memory_alloc, hsz, hcap]

theorem alloc_succ (st : PoolState) (size tick : ℕ) (hsz : size ≠ 0)
    (hcap : ¬ AI_MEMORY_POOL_SIZE < (st.allocatedSize + (HEADER_SIZE + alignUp size)) % U32) :
    ai_memory_alloc st size tick =
      (some (st.allocatedSize + HEADER_SIZE), allocResult st size tick) := by
  simp [ai_memory_alloc, hsz, hcap, allocResult]

theorem alloc_none_eq (st : PoolState) (size tick : ℕ)
    (h : (ai_memory_alloc st size tick).1 = none) :
    ai_memory_alloc st size tick = (none, st) := by
  by_cases hsz : size = 0
  · subst hsz; exact alloc_zero st tick
  by_cases hcap : AI_MEMORY_POOL_SIZE < (st.allocatedSize + (HEADER_SIZE + alignUp size)) % U32
  · exact alloc_fail st size tick hsz hcap
  · rw [alloc_succ st size tick hsz hcap] at h
    simp at h

theorem free_null (st : PoolState) : ai_memory_free st 0 = st := by
  simp [ai_memory_free]

theorem free_low (st : PoolState) (ptr : ℕ) (h0 : ptr ≠ 0) (hs : ptr < HEADER_SIZE) :
    ai_memory_free st ptr = leakBump st := by
  simp [ai_memory_free, h0, hs, leakBump]

theorem free_badmagic (st : PoolState) (ptr : ℕ) (h0 : ptr ≠ 0) (hs : ¬ ptr < HEADER_SIZE)
    (hm : magicAt st (ptr - HEADER_SIZE) ≠ MEMORY_MAGIC) :
    ai_memory_free st ptr = leakBump st := by
  simp [ai_memory_free, h0, hs, hm, leakBump]

theorem free_notmem (st : PoolState) (ptr : ℕ) (h0 : ptr ≠ 0) (hs : ¬ ptr < HEADER_SIZE)
    (hm : magicAt st (ptr - HEADER_SIZE) = MEMORY_MAGIC)
    (hb : ptr - HEADER_SIZE ∉ st.blocks) :
    ai_memory_free st ptr = leakBump st := by
  simp [ai_memory_free, h0, hs, hm, hb, leakBump]

theorem free_succ (st : PoolState) (ptr : ℕ) (h0 : ptr ≠ 0) (hs : ¬ ptr < HEADER_SIZE)
    (hm : magicAt st (ptr - HEADER_SIZE) = MEMORY_MAGIC)
    (hb : ptr - HEADER_SIZE ∈ st.blocks) :
    ai_memory_free st ptr = freeResult st (ptr - HEADER_SIZE) := by
  simp [ai_memory_free, h0, hs, hm, hb, freeResult]

/-! Helper lemmas about header reads. -/

theorem lookup_cons_self {o : ℕ} {h : MemHeader} {l : List (ℕ × MemHeader)} :
    ((o, h) :: l).lookup o = some h := by
  simp [List.lookup]

theorem lookup_cons_ne {o o' : ℕ} {h : MemHeader} {l : List (ℕ × MemHeader)}
    (hne : o' ≠ o) : ((o, h) :: l).lookup o' = l.lookup o' := by
  have hb : (o' == o) = false := beq_eq_false_iff_ne.mpr hne
  simp [List.lookup, hb]

theorem magicAt_allocResult_self (st : PoolState) (size tick : ℕ) :
    magicAt (allocResult st size tick) st.allocatedSize = MEMORY_MAGIC := by
  simp [magicAt, hdrAt, allocResult, lookup_cons_self]

theorem magicAt_allocResult_ne (st : PoolState) (size tick : ℕ) {o : ℕ}
    (h : o ≠ st.allocatedSize) :
    magicAt (allocResult st size tick) o = magicAt st o := by
  simp [magicAt, hdrAt, allocResult, lookup_cons_ne h]

theorem totalAt_allocResult_ne (st : PoolState) (size tick : ℕ) {o : ℕ}
    (h : o ≠ st.allocatedSize) :
    totalAt (allocResult st size tick) o = totalAt st o := by
  simp [totalAt, sizeAt, hdrAt, allocResult, lookup_cons_ne h]

theorem totalAt_allocResult_self (st : PoolState) (size tick : ℕ) :
    totalAt (allocResult st size tick) st.allocatedSize = (HEADER_SIZE + alignUp size) % U32 := by
  simp [totalAt, sizeAt, hdrAt, allocResult, lookup_cons_self]

theorem magicAt_freeResult_self (st : PoolState) (off : ℕ) :
    magicAt (freeResult st off) off = 0 := by
  simp [magicAt, hdrAt, freeResult, lookup_cons_self]

theorem magicAt_freeResult_ne (st : PoolState) (off : ℕ) {o : ℕ} (h : o ≠ off) :
    magicAt (freeResult st off) o = magicAt st o := by
  simp [magicAt, hdrAt, freeResult, lookup_cons_ne h]

theorem totalAt_freeResult (st : PoolState) (off o : ℕ) :
    totalAt (freeResult st off) o = totalAt st o := by
  by_cases h : o = off
  · subst h
    simp [totalAt, sizeAt, hdrAt, freeResult, lookup_cons_self]
  · simp [totalAt, sizeAt, hdrAt, freeResult, lookup_cons_ne h]

theorem MEMORY_MAGIC_ne_zero : MEMORY_MAGIC ≠ 0 := by decide

/-- A corrupted live list: some live offset appears twice, or its stored
magic tag is invalid.  Once a pool state is in this situation, no sequence
of allocator calls can ever empty the live list again. -/
def Bad (st : PoolState) : Prop :=
  ∃ off, off ∈ st.blocks ∧ (2 ≤ st.blocks.count off ∨ magicAt st off ≠ MEMORY_MAGIC)

theorem Bad_nonempty {st : PoolState} (h : Bad st) : st.blocks ≠ [] := by
  obtain ⟨o, ho, -⟩ := h
  intro he
  simp [he] at ho

theorem bad_alloc {st : PoolState} (size tick : ℕ) (h : Bad st) :
    Bad (allocResult st size tick) := by
  obtain ⟨o, ho, hd⟩ := h
  by_cases hoe : o = st.allocatedSize
  · refine ⟨o, List.mem_cons_of_mem _ ho, Or.inl ?_⟩
    have h1 : 1 ≤ List.count o st.blocks := List.count_pos_iff.2 ho
    show 2 ≤ List.count o (st.allocatedSize :: st.blocks)
    rw [← hoe, List.count_cons_self]
    omega
  · refine ⟨o, List.mem_cons_of_mem _ ho, ?_⟩
    rcases hd with hc | hm
    · refine Or.inl ?_
      show 2 ≤ List.count o (st.allocatedSize :: st.blocks)
      rw [List.count_cons_of_ne hoe]
      exact hc
    · exact Or.inr (by rwa [magicAt_allocResult_ne st size tick hoe])

theorem bad_free {st : PoolState} (off : ℕ)
    (hmag : magicAt st off = MEMORY_MAGIC) (h : Bad st) :
    Bad (freeResult st off) := by
  obtain ⟨o, ho, hd⟩ := h
  by_cases hoe : o = off
  · subst hoe
    rcases hd with hc | hm
    · refine ⟨o, ?_, Or.inr ?_⟩
      · have : 1 ≤ List.count o (st.blocks.erase o) := by
          rw [List.count_erase_self]
          omega
        exact List.count_pos_iff.1 this
      · rw [magicAt_freeResult_self]
        exact fun hh => MEMORY_MAGIC_ne_zero hh.symm
    · exact absurd hmag hm
  · refine ⟨o, (List.mem_erase_of_ne hoe).2 ho, ?_⟩
    rcases hd with hc | hm
    · refine Or.inl ?_
      show 2 ≤ List.count o (st.blocks.erase off)
      rwa [List.count_erase_of_ne hoe]
    · exact Or.inr (by rwa [magicAt_freeResult_ne st off hoe])

theorem bad_step {st : PoolState} (op : MemOp) (h : Bad st) : Bad (memStep st op) := by
  cases op with
  | alloc size tick =>
    show Bad (ai_memory_alloc st size tick).2
    by_cases hsz : size = 0
    · subst hsz; rw [alloc_zero]; exact h
    by_cases hcap : AI_MEMORY_POOL_SIZE < (st.allocatedSize + (HEADER_SIZE + alignUp size)) % U32
    · rw [alloc_fail st size tick hsz hcap]; exact h
    · rw [alloc_succ st size tick hsz hcap]; exact bad_alloc size tick h
  | free ptr =>
    show Bad (ai_memory_free st ptr)
    by_cases h0 : ptr = 0
    · subst h0; rw [free_null]; exact h
    by_cases hs : ptr < HEADER_SIZE
    · rw [free_low st ptr h0 hs]; exact h
    by_cases hm : magicAt st (ptr - HEADER_SIZE) = MEMORY_MAGIC
    · by_cases hb : ptr - HEADER_SIZE ∈ st.blocks
      · rw [free_succ st ptr h0 hs hm hb]; exact bad_free _ hm h
      · rw [free_notmem st ptr h0 hs hm hb]; exact h
    · rw [free_badmagic st ptr h0 hs hm]; exact h

theorem bad_run {st : PoolState} (ops : List MemOp) (h : Bad st) : Bad (runOps st ops) := by
  induction ops generalizing st with
  | nil => exact h
  | cons op rest ih => exact ih (bad_step op h)

theorem totalAt_lt (st : PoolState) (o : ℕ) : totalAt st o < U32 :=
  Nat.mod_lt _ (by decide)

/-- Exact (modular) bookkeeping of the pool statistics against the live
list: `allocated_size` is the 32-bit sum of the live blocks' total sizes,
and the allocation counter is the free counter plus the live-list length. -/
def Accounted (st : PoolState) : Prop :=
  st.allocatedSize = (st.blocks.map (totalAt st)).sum % U32 ∧
  st.allocationCount < U32 ∧ st.freeCount < U32 ∧
  st.allocationCount = (st.freeCount + st.blocks.length) % U32

theorem accounted_alloc {st : PoolState} (size tick : ℕ)
    (hacc : Accounted st) (hnb : ¬ Bad (allocResult st size tick)) :
    Accounted (allocResult st size tick) := by
  obtain ⟨hsum, hac, hfc, hcnt⟩ := hacc
  have hnotmem : st.allocatedSize ∉ st.blocks := by
    intro hmem
    refine hnb ⟨st.allocatedSize, List.mem_cons_self _ _, Or.inl ?_⟩
    have h1 : 1 ≤ List.count st.allocatedSize st.blocks := List.count_pos_iff.2 hmem
    show 2 ≤ List.count st.allocatedSize (st.allocatedSize :: st.blocks)
    rw [List.count_cons_self]
    omega
  have hmapeq : st.blocks.map (totalAt (allocResult st size tick)) = st.blocks.map (totalAt st) :=
    List.map_congr_left fun o ho =>
      totalAt_allocResult_ne st size tick (fun he => hnotmem (he ▸ ho))
  refine ⟨?_, ?_, hfc, ?_⟩
  · show (st.allocatedSize + (HEADER_SIZE + alignUp size) % U32) % U32 =
      ((st.allocatedSize :: st.blocks).map (totalAt (allocResult st size tick))).sum % U32
    rw [List.map_cons, hmapeq, List.sum_cons, totalAt_allocResult_self]
    simp only [U32] at *
    omega
  · show (st.allocationCount + 1) % U32 < U32
    exact Nat.mod_lt _ (by decide)
  · show (st.allocationCount + 1) % U32 = (st.freeCount + (st.allocatedSize :: st.blocks).length) % U32
    rw [List.length_cons]
    simp only [U32] at *
    omega

theorem accounted_free_succ {st : PoolState} (off : ℕ)
    (hb : off ∈ st.blocks) (hacc : Accounted st) :
    Accounted (freeResult st off) := by
  obtain ⟨hsum, hac, hfc, hcnt⟩ := hacc
  have hperm : st.blocks.Perm (off :: st.blocks.erase off) := List.perm_cons_erase hb
  have hsplit : (st.blocks.map (totalAt st)).sum =
      totalAt st off + ((st.blocks.erase off).map (totalAt st)).sum := by
    rw [(hperm.map (totalAt st)).sum_eq, List.map_cons, List.sum_cons]
  have hmapeq : (st.blocks.erase off).map (totalAt (freeResult st off)) =
      (st.blocks.erase off).map (totalAt st) :=
    List.map_congr_left fun o _ => totalAt_freeResult st off o
  have hlen : (st.blocks.erase off).length = st.blocks.length - 1 :=
    List.length_erase_of_mem hb
  have hlen1 : 1 ≤ st.blocks.length := List.length_pos.2 (List.ne_nil_of_mem hb)
  have hT := totalAt_lt st off
  refine ⟨?_, hac, ?_, ?_⟩
  · show (st.allocatedSize + (U32 - totalAt st off)) % U32 =
      ((st.blocks.erase off).map (totalAt (freeResult st off))).sum % U32
    rw [hmapeq]
    simp only [U32] at *
    omega
  · show (st.freeCount + 1) % U32 < U32
    exact Nat.mod_lt _ (by decide)
  · show st.allocationCount = ((st.freeCount + 1) % U32 + (st.blocks.erase off).length) % U32
    rw [hlen]
    simp only [U32] at *
    omega

theorem accounted_step {st : PoolState} (op : MemOp)
    (hacc : Accounted st) (hnb : ¬ Bad (memStep st op)) :
    Accounted (memStep st op) := by
  cases op with
  | alloc size tick =>
    show Accounted (ai_memory_alloc st size tick).2
    by_cases hsz : size = 0
    · subst hsz; rw [alloc_zero]; exact hacc
    by_cases hcap : AI_MEMORY_POOL_SIZE < (st.allocatedSize + (HEADER_SIZE + alignUp size)) % U32
    · rw [alloc_fail st size tick hsz hcap]; exact hacc
    · rw [alloc_succ st size tick hsz hcap]
      refine accounted_alloc size tick hacc ?_
      intro hbad
      refine hnb ?_
      show Bad (ai_memory_alloc st size tick).2
      rw [alloc_succ st size tick hsz hcap]
      exact hbad
  | free ptr =>
    show Accounted (ai_memory_free st ptr)
    by_cases h0 : ptr = 0
    · subst h0; rw [free_null]; exact hacc
    by_cases hs : ptr < HEADER_SIZE
    · rw [free_low st ptr h0 hs]; exact hacc
    by_cases hm : magicAt st (ptr - HEADER_SIZE) = MEMORY_MAGIC
    · by_cases hb : ptr - HEADER_SIZE ∈ st.blocks
      · rw [free_succ st ptr h0 hs hm hb]; exact accounted_free_succ _ hb hacc
      · rw [free_notmem st ptr h0 hs hm hb]; exact hacc
    · rw [free_badmagic st ptr h0 hs hm]; exact hacc

theorem accounted_run (ops : List MemOp) (st : PoolState)
    (hacc : Accounted st) (hempty : (runOps st ops).blocks = []) :
    Accounted (runOps st ops) := by
  induction ops generalizing st with
  | nil => exact hacc
  | cons op rest ih =>
    have hstep : runOps st (op :: rest) = runOps (memStep st op) rest := rfl
    rw [hstep] at hempty ⊢
    refine ih (memStep st op) (accounted_step op hacc ?_) hempty
    intro hbad
    exact Bad_nonempty (bad_run rest hbad) hempty

theorem accounted_init : Accounted initState := by
  refine ⟨rfl, by decide, by decide, rfl⟩

/-- A call sequence in which every `free` targets a payload pointer that is
live at that moment: its header carries the valid magic tag and its block
is on the allocated list.  This formalises "every freed pointer was
previously returned by allocate and has not been freed since" (so in
particular there are no double-frees). -/
inductive ValidRun : PoolState → List MemOp → Prop
  | nil (st : PoolState) : ValidRun st []
  | alloc (st : PoolState) (size tick : ℕ) (ops : List MemOp) :
      ValidRun (memStep st (.alloc size tick)) ops →
      ValidRun st (.alloc size tick :: ops)
  | free (st : PoolState) (ptr : ℕ) (ops : List MemOp)
      (hp : HEADER_SIZE ≤ ptr)
      (hm : magicAt st (ptr - HEADER_SIZE) = MEMORY_MAGIC)
      (hb : ptr - HEADER_SIZE ∈ st.blocks) :
      ValidRun (memStep st (.free ptr)) ops →
      ValidRun st (.free ptr :: ops)

/-- C3: starting from a freshly initialised pool, any interleaving of
allocate and matching free calls — every free targets a live previously
returned pointer (no double-frees), and at the end every allocation has
been freed (the allocated-block list is empty) — brings `allocated_size`
back to its pre-sequence value `0` and leaves
`allocation_count - free_count = 0`, i.e. the two counters equal. -/
theorem ai_memory_balance_law (ops : List MemOp)
    (_hv : ValidRun initState ops)
    (hempty : (runOps initState ops).blocks = []) :
    (runOps initState ops).allocatedSize = 0 ∧
    (runOps initState ops).allocationCount = (runOps initState ops).freeCount := by
  have hacc := accounted_run ops initState accounted_init hempty
  obtain ⟨hsum, hac, hfc, hcnt⟩ := hacc
  constructor
  · rw [hsum, hempty]
    simp
  · rw [hcnt, hempty]
    simp only [List.length_nil, Nat.add_zero]
    exact (Nat.mod_eq_of_lt hfc)

/-- Witness for `ai_memory_balance_law`: one allocation of 8 bytes followed
by a free of the returned pointer (payload offset 16). -/
theorem ai_memory_balance_law_witness :
    (runOps initState [MemOp.alloc 8 0, MemOp.free 16]).allocatedSize = 0 ∧
    (runOps initState [MemOp.alloc 8 0, MemOp.free 16]).allocationCount =
      (runOps initState [MemOp.alloc 8 0, MemOp.free 16]).freeCount :=
  ai_memory_balance_law [MemOp.alloc 8 0, MemOp.free 16]
    (ValidRun.alloc _ 8 0 _
      (ValidRun.free _ 16 [] (by decide) (by decide) (by decide)
        (ValidRun.nil _)))
    (by decide)

/-- C1: the bump offset `allocated_size` is also decremented by `free`, so
after an interior free the next allocation is carved inside a still-live
block.  Concretely: allocate 8 bytes (payload offset 16), allocate 8 bytes
(payload offset 40), free the first pointer, allocate 8 bytes again — the
code hands out payload offset 40 a second time while the second block is
still live (its header offset 24 is still on the allocated list), i.e. the
two live payload regions coincide. -/
theorem ai_memory_alloc_overlaps_live_block :
    ((ai_memory_alloc initState 8 0).2 |> fun s1 =>
      (ai_memory_alloc s1 8 0) |> fun s2 =>
        (ai_memory_free s2.2 16) |> fun s3 =>
          (ai_memory_alloc s3 8 0) |> fun s4 =>
            s2.1 = some 40 ∧ s4.1 = some 40 ∧ s4.2.blocks = [24, 24]) := by
  decide

/-- The capacity invariant: `allocated_size` never exceeds the pool size,
and the (32-bit) total sizes of the distinct live blocks with intact
headers sum to at most `allocated_size`. -/
def Capped (st : PoolState) : Prop :=
  st.allocatedSize ≤ AI_MEMORY_POOL_SIZE ∧
  ((st.blocks.toFinset.filter fun o => magicAt st o = MEMORY_MAGIC).sum (totalAt st))
    ≤ st.allocatedSize

/-- A request size is overflow-free when the 32-bit total block size it
produces leaves the capacity check itself free of 32-bit wraparound. -/
def SizeOk (size : ℕ) : Prop :=
  (HEADER_SIZE + alignUp size) % U32 + AI_MEMORY_POOL_SIZE < U32

instance (size : ℕ) : Decidable (SizeOk size) := by
  unfold SizeOk; infer_instance

theorem capped_alloc {st : PoolState} (size tick : ℕ)
    (hok : SizeOk size)
    (hcap : ¬ AI_MEMORY_POOL_SIZE < (st.allocatedSize + (HEADER_SIZE + alignUp size)) % U32)
    (hc : Capped st) : Capped (allocResult st size tick) := by
  obtain ⟨hle, hS⟩ := hc
  set t := (HEADER_SIZE + alignUp size) % U32 with ht
  have hnow : (st.allocatedSize + (HEADER_SIZE + alignUp size)) % U32 = st.allocatedSize + t := by
    have := hok
    simp only [SizeOk, U32] at *
    omega
  have haseq : (allocResult st size tick).allocatedSize = st.allocatedSize + t := by
    show (st.allocatedSize + (HEADER_SIZE + alignUp size) % U32) % U32 = st.allocatedSize + t
    simp only [U32] at *
    omega
  refine ⟨?_, ?_⟩
  · rw [haseq]
    omega
  · rw [haseq]
    set st' := allocResult st size tick with hst'
    have hblocks : st'.blocks = st.allocatedSize :: st.blocks := rfl
    set F' := st'.blocks.toFinset.filter fun o => magicAt st' o = MEMORY_MAGIC with hF'
    set F := st.blocks.toFinset.filter fun o => magicAt st o = MEMORY_MAGIC with hF
    have hsub : F'.erase st.allocatedSize ⊆ F := by
      intro o ho
      rw [Finset.mem_erase] at ho
      obtain ⟨hne, ho⟩ := ho
      rw [hF', Finset.mem_filter] at ho
      obtain ⟨hmem, hmag⟩ := ho
      rw [hblocks, List.toFinset_cons, Finset.mem_insert] at hmem
      rcases hmem with h | h
      · exact absurd h hne
      · rw [hF, Finset.mem_filter]
        refine ⟨h, ?_⟩
        rwa [magicAt_allocResult_ne st size tick hne] at hmag
    have hcongr : ∀ o ∈ F'.erase st.allocatedSize, totalAt st' o = totalAt st o := by
      intro o ho
      rw [Finset.mem_erase] at ho
      exact totalAt_allocResult_ne st size tick ho.1
    have h1 : F'.sum (totalAt st') ≤ totalAt st' st.allocatedSize +
        (F'.erase st.allocatedSize).sum (totalAt st') := by
      by_cases hmem : st.allocatedSize ∈ F'
      · rw [Finset.add_sum_erase _ _ hmem]
      · rw [Finset.erase_eq_of_not_mem hmem]
        omega
    have h2 : (F'.erase st.allocatedSize).sum (totalAt st') =
        (F'.erase st.allocatedSize).sum (totalAt st) := Finset.sum_congr rfl hcongr
    have h3 : (F'.erase st.allocatedSize).sum (totalAt st) ≤ F.sum (totalAt st) :=
      Finset.sum_le_sum_of_subset hsub
    have h4 : totalAt st' st.allocatedSize = t := totalAt_allocResult_self st size tick
    omega

theorem capped_free_succ {st : PoolState} (off : ℕ)
    (hm : magicAt st off = MEMORY_MAGIC) (hb : off ∈ st.blocks)
    (hc : Capped st) : Capped (freeResult st off) := by
  obtain ⟨hle, hS⟩ := hc
  set F := st.blocks.toFinset.filter (fun o => magicAt st o = MEMORY_MAGIC) with hF
  have hmemF : off ∈ F := by
    rw [hF, Finset.mem_filter, List.mem_toFinset]
    exact ⟨hb, hm⟩
  have hTle : totalAt st off ≤ F.sum (totalAt st) :=
    Finset.single_le_sum (fun i _ => Nat.zero_le _) hmemF
  have hT := totalAt_lt st off
  have haseq : (freeResult st off).allocatedSize = st.allocatedSize - totalAt st off := by
    show (st.allocatedSize + (U32 - totalAt st off)) % U32 = st.allocatedSize - totalAt st off
    simp only [AI_MEMORY_POOL_SIZE, U32] at *
    omega
  set st' := freeResult st off with hst'
  set F' := st'.blocks.toFinset.filter (fun o => magicAt st' o = MEMORY_MAGIC) with hF'
  have hsub : F' ⊆ F.erase off := by
    intro o ho
    rw [hF', Finset.mem_filter, List.mem_toFinset] at ho
    obtain ⟨hmem, hmag⟩ := ho
    have hmem' : o ∈ st.blocks.erase off := hmem
    have hne : o ≠ off := by
      intro he
      subst he
      rw [magicAt_freeResult_self] at hmag
      exact MEMORY_MAGIC_ne_zero hmag.symm
    rw [Finset.mem_erase]
    refine ⟨hne, ?_⟩
    rw [hF, Finset.mem_filter, List.mem_toFinset]
    refine ⟨(st.blocks.erase_sublist off).mem hmem', ?_⟩
    rwa [magicAt_freeResult_ne st off hne] at hmag
  have hcongr : ∀ o ∈ F', totalAt st' o = totalAt st o :=
    fun o _ => totalAt_freeResult st off o
  have h1 : F'.sum (totalAt st') = F'.sum (totalAt st) := Finset.sum_congr rfl hcongr
  have h2 : F'.sum (totalAt st) ≤ (F.erase off).sum (totalAt st) :=
    Finset.sum_le_sum_of_subset hsub
  have h3 : (F.erase off).sum (totalAt st) + totalAt st off = F.sum (totalAt st) :=
    Finset.sum_erase_add F _ hmemF
  rw [hst'] at haseq ⊢
  refine ⟨?_, ?_⟩
  · rw [haseq]; omega
  · rw [haseq, ← hst', ← hF', h1]
    omega

theorem capped_step {st : PoolState} (op : MemOp)
    (hok : ∀ size tick, op = .alloc size tick → SizeOk size)
    (hc : Capped st) : Capped (memStep st op) := by
  cases op with
  | alloc size tick =>
    show Capped (ai_memory_alloc st size tick).2
    by_cases hsz : size = 0
    · subst hsz; rw [alloc_zero]; exact hc
    by_cases hcap : AI_MEMORY_POOL_SIZE < (st.allocatedSize + (HEADER_SIZE + alignUp size)) % U32
    · rw [alloc_fail st size tick hsz hcap]; exact hc
    · rw [alloc_succ st size tick hsz hcap]
      exact capped_alloc size tick (hok size tick rfl) hcap hc
  | free ptr =>
    show Capped (ai_memory_free st ptr)
    by_cases h0 : ptr = 0
    · subst h0; rw [free_null]; exact hc
    by_cases hs : ptr < HEADER_SIZE
    · rw [free_low st ptr h0 hs]; exact hc
    by_cases hm : magicAt st (ptr - HEADER_SIZE) = MEMORY_MAGIC
    · by_cases hb : ptr - HEADER_SIZE ∈ st.blocks
      · rw [free_succ st ptr h0 hs hm hb]; exact capped_free_succ _ hm hb hc
      · rw [free_notmem st ptr h0 hs hm hb]; exact hc
    · rw [free_badmagic st ptr h0 hs hm]; exact hc

theorem capped_run (ops : List MemOp) (st : PoolState)
    (hok : ∀ size tick, MemOp.alloc size tick ∈ ops → SizeOk size)
    (hc : Capped st) : Capped (runOps st ops) := by
  induction ops generalizing st with
  | nil => exact hc
  | cons op rest ih =>
    have hstep : runOps st (op :: rest) = runOps (memStep st op) rest := rfl
    rw [hstep]
    refine ih (memStep st op) (fun s t hm => hok s t (List.mem_cons_of_mem _ hm)) ?_
    exact capped_step op (fun s t he => hok s t (he ▸ List.mem_cons_self _ _)) hc

theorem capped_init : Capped initState := by
  constructor <;> simp [initState, AI_MEMORY_POOL_SIZE]

/-- C2 (amended): `ai_memory_alloc` returns the null sentinel on a
zero-size request, and whenever `allocated_size + header + aligned size`
computed in 32-bit arithmetic exceeds the pool capacity; a failing call
returns the state unchanged (no statistic is mutated); and in every state
reachable from the initialised pool by calls whose 32-bit total block size
cannot wrap the capacity check (`SizeOk`), `allocated_size` never exceeds
the pool capacity. -/
theorem ai_memory_alloc_guard_and_capacity :
    (∀ st tick, ai_memory_alloc st 0 tick = (none, st)) ∧
    (∀ st size tick,
      AI_MEMORY_POOL_SIZE < (st.allocatedSize + (HEADER_SIZE + alignUp size)) % U32 →
      ai_memory_alloc st size tick = (none, st)) ∧
    (∀ ops, (∀ size tick, MemOp.alloc size tick ∈ ops → SizeOk size) →
      (runOps initState ops).allocatedSize ≤ AI_MEMORY_POOL_SIZE) := by
  refine ⟨alloc_zero, ?_, ?_⟩
  · intro st size tick hcap
    by_cases hsz : size = 0
    · subst hsz; exact alloc_zero st tick
    · exact alloc_fail st size tick hsz hcap
  · intro ops hok
    exact (capped_run ops initState hok capped_init).1

/-- Witness for `ai_memory_alloc_guard_and_capacity`: a zero-size request,
a request that overfills the fresh pool, and a short overflow-free run. -/
theorem ai_memory_alloc_guard_and_capacity_witness :
    ai_memory_alloc initState 0 0 = (none, initState) ∧
    ai_memory_alloc initState 2621440 0 = (none, initState) ∧
    (runOps initState [MemOp.alloc 8 0, MemOp.free 16]).allocatedSize ≤ AI_MEMORY_POOL_SIZE :=
  ⟨ai_memory_alloc_guard_and_capacity.1 initState 0,
   ai_memory_alloc_guard_and_capacity.2.1 initState 2621440 0 (by decide),
   ai_memory_alloc_guard_and_capacity.2.2 [MemOp.alloc 8 0, MemOp.free 16]
     (by
       intro size tick hm
       simp only [List.mem_cons, List.not_mem_nil, or_false] at hm
       rcases hm with h | h
       · cases h; decide
       · exact MemOp.noConfusion h)⟩

/-- C2 counterexample: the claim as stated is false on the code.  The
32-bit computation `sizeof(header) + aligned_size` wraps for the request
size `2^32 - 24`, so the second allocation below passes the capacity check
although its mathematically aligned size vastly exceeds the pool, and it
records a block whose stored 32-bit total (`2^32 - 8`) no longer matches
what was added to `allocated_size`; freeing the first block then drives
`allocated_size` to `4294967288`, far above the 2621440-byte capacity —
a reachable state violating the claimed invariant. -/
theorem ai_memory_alloc_overflow_counterexample :
    AI_MEMORY_POOL_SIZE <
      (runOps initState
        [MemOp.alloc 8 0, MemOp.alloc 4294967272 0, MemOp.free 16]).allocatedSize := by
  decide

/-- C7: a free whose block header does not carry the valid magic tag only
bumps the leak counter: `allocated_size`, both counters, the block list
and the stored headers are all left unchanged.  Moreover a successful
free zeroes the tag in the header it releases, so an immediate second
free of the same pointer falls into exactly this corruption path. -/
theorem ai_memory_free_invalid_magic :
    (∀ st ptr, HEADER_SIZE ≤ ptr →
      magicAt st (ptr - HEADER_SIZE) ≠ MEMORY_MAGIC →
      ai_memory_free st ptr = { st with leakCount := (st.leakCount + 1) % U32 }) ∧
    (∀ st ptr, HEADER_SIZE ≤ ptr →
      magicAt st (ptr - HEADER_SIZE) = MEMORY_MAGIC →
      ptr - HEADER_SIZE ∈ st.blocks →
      magicAt (ai_memory_free st ptr) (ptr - HEADER_SIZE) = 0) := by
  constructor
  · intro st ptr hp hm
    have h0 : ptr ≠ 0 := by
      intro h; subst h; exact absurd hp (by decide)
    have hs : ¬ ptr < HEADER_SIZE := by omega
    rw [free_badmagic st ptr h0 hs hm]
    rfl
  · intro st ptr hp hm hb
    have h0 : ptr ≠ 0 := by
      intro h; subst h; exact absurd hp (by decide)
    have hs : ¬ ptr < HEADER_SIZE := by omega
    rw [free_succ st ptr h0 hs hm hb]
    exact magicAt_freeResult_self st (ptr - HEADER_SIZE)

/-- Witness for `ai_memory_free_invalid_magic`: freeing payload offset 16
on the fresh pool (whose memory holds no magic tag) only bumps the leak
counter, and after allocating and freeing a block its tag reads zero. -/
theorem ai_memory_free_invalid_magic_witness :
    ai_memory_free initState 16 = { initState with leakCount := 1 } ∧
    magicAt (ai_memory_free (ai_memory_alloc initState 8 0).2 16) 0 = 0 :=
  ⟨ai_memory_free_invalid_magic.1 initState 16 (by decide) (by decide),
   ai_memory_free_invalid_magic.2 (ai_memory_alloc initState 8 0).2 16
     (by decide) (by decide) (by decide)⟩

/-- C10: `ai_memory_check_leaks` returns exactly the number of blocks on
the allocated list whose 32-bit age `now - timestamp` exceeds the 30000 ms
staleness threshold; it frees nothing — the allocated-block list, the
stored headers, `allocated_size` and the allocation/free counters are all
unchanged (only the leak counter absorbs the count). -/
theorem ai_memory_check_leaks_spec (st : PoolState) (now : ℕ) :
    (ai_memory_check_leaks st now).1 =
      (st.blocks.filter fun off => 30000 < u32sub now (tsAt st off)).length ∧
    (ai_memory_check_leaks st now).2.blocks = st.blocks ∧
    (ai_memory_check_leaks st now).2.headers = st.headers ∧
    (ai_memory_check_leaks st now).2.allocatedSize = st.allocatedSize ∧
    (ai_memory_check_leaks st now).2.allocationCount = st.allocationCount ∧
    (ai_memory_check_leaks st now).2.freeCount = st.freeCount := by
  refine ⟨?_, rfl, rfl, rfl, rfl, rfl⟩
  show leakWalk st now st.blocks = _
  induction st.blocks with
  | nil => rfl
  | cons off rest ih =>
    by_cases h : 30000 < u32sub now (tsAt st off)
    · simp [leakWalk, h, List.filter_cons, ih]
      omega
    · simp [leakWalk, h, List.filter_cons, ih]

/-!  OCR pipeline, translated from src/src/tasks/ai_task.c.

`float` values (confidences) are modelled as `ℚ` — only comparisons,
sums and one division appear, all exact at the modelled values.  The
black-box Neural-ART accelerator (its runtime is not part of this
repository) is represented by boolean status oracles: the code around it
is translated faithfully, including the placeholder recognition output
("Sample Text", confidence 0.92) hard-coded in `ocr_recognize_text`. -/

def OCR_INPUT_WIDTH : ℕ := 320
def OCR_INPUT_HEIGHT : ℕ := 240
def CAMERA_WIDTH : ℕ := 640
def OCR_MAX_TEXT_LENGTH : ℕ := 256

/-- Structure `frame_buffer_t` (camera_task.h): pixel data (an unbounded index
function delivering the `uint16_t` RGB565 pixels), byte size, timestamp
and readiness flag. -/
structure FrameBuffer where
  data : ℕ → ℕ
  size : ℕ
  timestamp : ℕ
  ready : Bool

/-- Structure `text_bbox_t` (ai_task.h). -/
structure TextBbox where
  x : ℕ
  y : ℕ
  width : ℕ
  height : ℕ
  confidence : ℚ
  textDirection : ℕ
deriving DecidableEq, Repr

/-- Structure `ocr_result_t` (ai_task.h). -/
structure OcrResult where
  text : String
  confidence : ℚ
  charCount : ℕ
  wordCount : ℕ
  bboxCount : ℕ
  timestamp : ℕ
  languageDetected : ℕ
deriving DecidableEq, Repr

/-- The zeroed `ocr_result_t` produced by `memset(result, 0, ...)` with
the timestamp stamped immediately afterwards (ai_task.c lines 351-352). -/
def zeroResult (tick : ℕ) : OcrResult :=
  { text := "", confidence := 0, charCount := 0, wordCount := 0,
    bboxCount := 0, timestamp := tick % U32, languageDetected := 0 }

/-- Structure `ai_performance_stats_t` (ai_task.h). -/
structure AiStats where
  totalInferences : ℕ
  successfulInferences : ℕ
  failedInferences : ℕ
  minTimeUs : ℕ
  maxTimeUs : ℕ
  avgTimeUs : ℕ
  lastTimeUs : ℕ
  currentMemoryUsage : ℕ
  peakMemoryUsage : ℕ
  memoryLeaksDetected : ℕ
  avgConfidenceScore : ℚ
  lowConfidenceCount : ℕ
  characterAccuracy : ℕ
deriving DecidableEq, Repr

/-- Function `ai_stats_reset` (ai_memory.c lines 210-216). -/
def ai_stats_reset : AiStats :=
  { totalInferences := 0, successfulInferences := 0, failedInferences := 0,
    minTimeUs := U32 - 1, maxTimeUs := 0, avgTimeUs := 0, lastTimeUs := 0,
    currentMemoryUsage := 0, peakMemoryUsage := 0, memoryLeaksDetected := 0,
    avgConfidenceScore := 0, lowConfidenceCount := 0, characterAccuracy := 0 }

/-- Function `ai_stats_update_timing` (ai_memory.c lines 223-246); the running
average is computed in `uint32_t` arithmetic. -/
def ai_stats_update_timing (s : AiStats) (t : ℕ) : AiStats :=
  let s1 := { s with lastTimeUs := t }
  let s2 := if t < s1.minTimeUs then { s1 with minTimeUs := t } else s1
  let s3 := if s2.maxTimeUs < t then { s2 with maxTimeUs := t } else s2
  if 0 < s3.successfulInferences then
    { s3 with avgTimeUs :=
        ((s3.avgTimeUs * (s3.successfulInferences - 1)) % U32 + t) % U32
          / s3.successfulInferences }
  else { s3 with avgTimeUs := t }

/-- Function `ai_stats_update_quality` (ai_memory.c lines 248-268); `threshold` is
`ai_context.config.confidence_threshold`. -/
def ai_stats_update_quality (s : AiStats) (threshold conf : ℚ) (acc : ℕ) : AiStats :=
  let s1 :=
    if 0 < s.successfulInferences then
      { s with avgConfidenceScore :=
          (s.avgConfidenceScore * (s.successfulInferences - 1 : ℕ) + conf)
            / (s.successfulInferences : ℚ) }
    else { s with avgConfidenceScore := conf }
  let s2 := { s1 with characterAccuracy := acc }
  if conf < threshold then
    { s2 with lowConfidenceCount := (s2.lowConfidenceCount + 1) % U32 }
  else s2

/-- The outcome of one `ocr_recognize_text` call on a region: its return
status, the text and confidence written through the out-parameters. -/
structure RegionRecog where
  status : ℤ
  text : String
  conf : ℚ
deriving DecidableEq, Repr

/-- Appending one accepted fragment to `combined_text` (ai_task.c lines
388-392): a space separator if the buffer is nonempty (`strcat`), then
`strncat` limited to the remaining capacity of the 256-byte buffer. -/
def appendFragment (acc frag : String) : String :=
  let acc1 := if 0 < acc.length then acc ++ " " else acc
  acc1 ++ frag.take (OCR_MAX_TEXT_LENGTH - acc1.length - 1)

/-- One iteration of the recognition-aggregation loop (ai_task.c lines
381-397): a fragment is accepted iff its recognition returned 0 and its
confidence is strictly greater than 0.5; accepted fragments are appended
to the combined text, added to the running confidence total, counted. -/
def aggregateStep (acc : String × ℚ × ℕ) (r : RegionRecog) : String × ℚ × ℕ :=
  if r.status = 0 ∧ 1/2 < r.conf then
    (appendFragment acc.1 r.text, acc.2.1 + r.conf, acc.2.2 + 1)
  else acc

/-- The whole aggregation loop: combined text, total confidence, and the
number of accepted (recognised) regions. -/
def aggregateRegions (rs : List RegionRecog) : String × ℚ × ℕ :=
  rs.foldl aggregateStep ("", 0, 0)

/-- Function `ocr_detect_text` (ai_task.c lines 468-503): allocates a 1024-byte
scratch output buffer, runs the detection model (status supplied by the
black-box accelerator, here the oracle `npuOk`), and — as the placeholder
parsing — reports a single centred text region `(80, 60, 160, 60)` with
confidence 0.9 (`max_boxes = 16 > 0`).  The scratch buffer is freed on
every exit path after the allocation. -/
def ocr_detect_text (pool : PoolState) (tick : ℕ) (npuOk : Bool) :
    ℤ × List TextBbox × PoolState :=
  match ai_memory_alloc pool 1024 tick with
  | (none, p) => (-4, [], p)
  | (some ptr, p) =>
    if npuOk then
      (1, [{ x := OCR_INPUT_WIDTH / 4, y := OCR_INPUT_HEIGHT / 4,
             width := OCR_INPUT_WIDTH / 2, height := OCR_INPUT_HEIGHT / 4,
             confidence := 9/10, textDirection := 0 }],
       ai_memory_free p ptr)
    else (-6, [], ai_memory_free p ptr)

/-- Function `ocr_recognize_text` (ai_task.c lines 505-553): allocates a region
crop buffer of `width * height * 2` bytes, runs the recognition model
(status oracle `npuOk`), and on success emits the placeholder CTC decode
"Sample Text" with confidence 0.92; on accelerator failure it emits the
empty string with confidence 0 and returns the NPU error.  The crop
buffer is freed on every exit path after the allocation.  (The crop's
pixel copying affects only buffer contents, which nothing reads here.) -/
def ocr_recognize_text (pool : PoolState) (bbox : TextBbox) (tick : ℕ) (npuOk : Bool) :
    RegionRecog × PoolState :=
  match ai_memory_alloc pool (bbox.width * bbox.height * 2) tick with
  | (none, p) => (⟨-4, "", 0⟩, p)
  | (some ptr, p) =>
    if npuOk then (⟨0, "Sample Text", 23/25⟩, ai_memory_free p ptr)
    else (⟨-6, "", 0⟩, ai_memory_free p ptr)

/-- External inputs of one `ocr_process_frame` call: the accelerator
status for the detection model and for each region recognition, the
language classifier (`tts_detect_language`, audio task), and the tick. -/
structure OcrOracles where
  detectOk : Bool
  recogOk : ℕ → Bool
  langOf : String → ℕ
  tick : ℕ

/-- The recognition loop of `ocr_process_frame` (ai_task.c lines 381-397)
with the pool threaded through the per-region crop allocations; returns
the final pool and the per-region outcomes in order. -/
def recogLoop (orc : OcrOracles) (boxes : List TextBbox) (pool : PoolState) :
    PoolState × List RegionRecog :=
  boxes.foldl
    (fun acc b =>
      let r := ocr_recognize_text acc.1 b orc.tick (orc.recogOk acc.2.length)
      (r.2, acc.2 ++ [r.1]))
    (pool, [])

/-- Steps 3-5 of `ocr_process_frame` (ai_task.c lines 376-430): the
recognition loop over the detected boxes (at most 16), the aggregation,
the result post-processing, the release of the preprocessed buffer at
`pptr`, and the statistics update (`total_inferences` always incremented,
`successful`/`failed` according to whether any region was accepted). -/
def processCore (stats : AiStats) (orc : OcrOracles) (detCount : ℤ)
    (boxes : List TextBbox) (pool2 : PoolState) (pptr : ℕ) :
    ℤ × OcrResult × PoolState × AiStats :=
  let lp := recogLoop orc (boxes.take 16) pool2
  let agg := aggregateRegions lp.2
  let recognized := agg.2.2
  let result : OcrResult :=
    if 0 < recognized then
      let text := agg.1.take (OCR_MAX_TEXT_LENGTH - 1)
      { text := text
        confidence := agg.2.1 / (recognized : ℚ)
        charCount := text.length
        wordCount := 1 + text.toList.count ' '
        bboxCount := detCount.toNat
        timestamp := orc.tick % U32
        languageDetected := orc.langOf text }
    else { zeroResult orc.tick with bboxCount := detCount.toNat }
  let p3 := ai_memory_free lp.1 pptr
  let stats1 :=
    { stats with
      totalInferences := (stats.totalInferences + 1) % U32
      successfulInferences :=
        if 0 < recognized then (stats.successfulInferences + 1) % U32
        else stats.successfulInferences
      failedInferences :=
        if 0 < recognized then stats.failedInferences
        else (stats.failedInferences + 1) % U32 }
  (0, result, p3, stats1)

/-- Function `ocr_process_frame` (ai_task.c lines 341-431): validate the frame,
allocate and fill the preprocessed image buffer, detect text regions,
then run `processCore` (recognition, aggregation, cleanup, statistics).
Error paths free the already-acquired scratch buffers and return the
typed error without touching the statistics. -/
def ocr_process_frame (pool : PoolState) (stats : AiStats) (frame : FrameBuffer)
    (orc : OcrOracles) : ℤ × OcrResult × PoolState × AiStats :=
  if !frame.ready then (-5, zeroResult orc.tick, pool, stats)
  else
    match ai_memory_alloc pool (OCR_INPUT_WIDTH * OCR_INPUT_HEIGHT * 2) orc.tick with
    | (none, p) => (-4, zeroResult orc.tick, p, stats)
    | (some pptr, p) =>
      -- `ocr_preprocess_image` returns 0 here (both pointers are non-null)
      let det := ocr_detect_text p orc.tick orc.detectOk
      if det.1 < 0 then (det.1, zeroResult orc.tick, ai_memory_free det.2.2 pptr, stats)
      else processCore stats orc det.1 det.2.1 det.2.2 pptr

/-- Default `ai_task_config_t.confidence_threshold` (ai_task.c line 59). -/
def defaultConfidenceThreshold : ℚ := 19/20

/-- One successful-processing pass of the `ai_task_entry` loop body
(ai_task.c lines 101-144): process the frame; if processing returned 0,
update timing and quality statistics and apply the confidence gate —
a result is forwarded to the audio task only if its confidence is at
least the configured threshold, otherwise the task loop increments the
low-confidence counter itself; if processing failed, the loop counts a
failed inference (error handling/recovery is modelled separately).
Returns the pool, the statistics, and whether the result was forwarded. -/
def ai_task_cycle (pool : PoolState) (stats : AiStats) (threshold : ℚ)
    (frame : FrameBuffer) (orc : OcrOracles) (timeUs : ℕ) :
    PoolState × AiStats × Bool :=
  let pr := ocr_process_frame pool stats frame orc
  if pr.1 = 0 then
    let s1 := ai_stats_update_timing pr.2.2.2 timeUs
    let s2 := ai_stats_update_quality s1 threshold pr.2.1.confidence
      (if 0 < pr.2.1.charCount then 95 else 0)
    if threshold ≤ pr.2.1.confidence then (pr.2.2.1, s2, true)
    else (pr.2.2.1, { s2 with lowConfidenceCount := (s2.lowConfidenceCount + 1) % U32 }, false)
  else
    (pr.2.2.1, { pr.2.2.2 with failedInferences := (pr.2.2.2.failedInferences + 1) % U32 }, false)

/-- The error-handling slice of `ai_task_context_t` (ai_task.h). -/
structure AiErrorState where
  errorCode : ℕ
  consecutiveErrors : ℕ
  recoveryNeeded : Bool
deriving DecidableEq, Repr

/-- External outcomes of one `ai_recovery_attempt`: whether NPU
reinitialisation, model reloading, and the final self-test succeed. -/
structure RecoveryOracle where
  npuOk : Bool
  modelsOk : Bool
  selfTestOk : Bool
deriving DecidableEq, Repr

/-- Function `ai_recovery_attempt` (ai_memory.c lines 394-430): sets the
recovery flag, power-cycles and reinitialises the NPU, reloads models,
resets the error counters, runs the self-test; any failing step returns
`AI_ERROR_RECOVERY_FAILED = -8` (note the counters are reset before the
self-test, so a self-test failure leaves them cleared). -/
def ai_recovery_attempt (st : AiErrorState) (orc : RecoveryOracle) : ℤ × AiErrorState :=
  let st1 := { st with recoveryNeeded := true }
  if !orc.npuOk then (-8, st1)
  else if !orc.modelsOk then (-8, st1)
  else
    let st2 := { st1 with consecutiveErrors := 0, errorCode := 0, recoveryNeeded := false }
    if !orc.selfTestOk then (-8, st2) else (0, st2)

/-- Function `ai_handle_inference_error` (ai_task.c lines 593-612): records the
error code, increments the consecutive-error counter, and attempts
recovery exactly when the incremented counter exceeds 5.  The third
component reports whether a recovery attempt was made. -/
def ai_handle_inference_error (st : AiErrorState) (ec : ℕ) (orc : RecoveryOracle) :
    ℤ × AiErrorState × Bool :=
  let st1 := { st with errorCode := ec % U32,
                       consecutiveErrors := (st.consecutiveErrors + 1) % U32 }
  if 5 < st1.consecutiveErrors then
    let r := ai_recovery_attempt st1 orc
    (r.1, r.2, true)
  else (0, st1, false)

/-- A run of consecutive reported inference errors; returns the final
error state and the number of recovery attempts made along the way. -/
def runErrors (st : AiErrorState) : List (ℕ × RecoveryOracle) → AiErrorState × ℕ
  | [] => (st, 0)
  | (ec, orc) :: rest =>
    let r := ai_handle_inference_error st ec orc
    let rst := runErrors r.2.1 rest
    (rst.1, (if r.2.2 then 1 else 0) + rst.2)

/-- The 2x2 RGB565 block average of `ocr_preprocess_image` (ai_task.c
lines 444-462) for destination pixel `(x, y)`: the four source pixels are
read as `uint16_t`, each 5-6-5 channel is extracted (`>> 11`,
`(>> 5) & 0x3F`, `& 0x1F`, written as division/remainder), averaged, and
repacked with `(r << 11) | (g << 5) | b`. -/
def ocr_preprocess_pixel (src : ℕ → ℕ) (x y : ℕ) : ℕ :=
  let p1 := src (y * 2 * CAMERA_WIDTH + x * 2) % 65536
  let p2 := src (y * 2 * CAMERA_WIDTH + x * 2 + 1) % 65536
  let p3 := src ((y * 2 + 1) * CAMERA_WIDTH + x * 2) % 65536
  let p4 := src ((y * 2 + 1) * CAMERA_WIDTH + x * 2 + 1) % 65536
  let avgR := (p1 / 2048 + p2 / 2048 + p3 / 2048 + p4 / 2048) / 4
  let avgG := (p1 / 32 % 64 + p2 / 32 % 64 + p3 / 32 % 64 + p4 / 32 % 64) / 4
  let avgB := (p1 % 32 + p2 % 32 + p3 % 32 + p4 % 32) / 4
  avgR <<< 11 ||| avgG <<< 5 ||| avgB

/-- Function `ocr_preprocess_image` (ai_task.c lines 433-466): the output image,
as the function giving the destination pixel written at `(x, y)` for
`x < OCR_INPUT_WIDTH`, `y < OCR_INPUT_HEIGHT` (the null-pointer checks
are satisfied by construction in this embedding, so the status is 0). -/
def ocr_preprocess_image (frame : FrameBuffer) (x y : ℕ) : ℕ :=
  ocr_preprocess_pixel frame.data x y

/-- The acceptance test of the aggregation loop (ai_task.c line 387):
`processing_result == 0 && region_confidence > 0.5f`. -/
def acceptedRegion (r : RegionRecog) : Prop := r.status = 0 ∧ 1/2 < r.conf

instance (r : RegionRecog) : Decidable (acceptedRegion r) := by
  unfold acceptedRegion; infer_instance

theorem aggregate_foldl (rs : List RegionRecog) (acc : String × ℚ × ℕ) :
    rs.foldl aggregateStep acc =
      ((rs.filter fun r => acceptedRegion r).foldl (fun a r => appendFragment a r.text) acc.1,
       acc.2.1 + (((rs.filter fun r => acceptedRegion r).map RegionRecog.conf).sum),
       acc.2.2 + (rs.filter fun r => acceptedRegion r).length) := by
  induction rs generalizing acc with
  | nil => simp
  | cons r rest ih =>
    by_cases h : acceptedRegion r
    · have hd : (decide (acceptedRegion r)) = true := decide_eq_true h
      have hstep : aggregateStep acc r =
          (appendFragment acc.1 r.text, acc.2.1 + r.conf, acc.2.2 + 1) := by
        unfold aggregateStep acceptedRegion at *
        rw [if_pos h]
      rw [List.foldl_cons, hstep, ih, List.filter_cons, hd]
      simp only [if_true, List.foldl_cons, List.map_cons, List.sum_cons,
        List.length_cons, Prod.ext_iff]
      refine ⟨trivial, ?_, ?_⟩
      · ring
      · omega
    · have hd : (decide (acceptedRegion r)) = false := decide_eq_false h
      have hstep : aggregateStep acc r = acc := by
        unfold aggregateStep acceptedRegion at *
        rw [if_neg h]
      rw [List.foldl_cons, hstep, ih, List.filter_cons, hd]
      simp

/-- C6: during the aggregation step of `ocr_process_frame`, with the
per-region outcomes the source's recognition step produces (a successful
recognition always carries confidence 0.92 = 23/25), the accepted set is
exactly the successfully recognized fragments: none of them has
confidence below the 0.5 acceptance threshold, so none is discarded, and
every one of them is appended to the combined text and enters the total
used for the mean-confidence computation (and is counted). -/
theorem aggregate_includes_exactly_successful (rs : List RegionRecog)
    (hsrc : ∀ r ∈ rs, r.status = 0 → r.conf = 23/25) :
    aggregateRegions rs =
      ((rs.filter fun r => r.status = 0).foldl (fun a r => appendFragment a r.text) "",
       ((rs.filter fun r => r.status = 0).map RegionRecog.conf).sum,
       (rs.filter fun r => r.status = 0).length) := by
  have hfilter : (rs.filter fun r => acceptedRegion r) = rs.filter fun r => r.status = 0 := by
    apply List.filter_congr
    intro r hr
    rw [decide_eq_decide]
    constructor
    · exact fun h => h.1
    · intro hs
      refine ⟨hs, ?_⟩
      rw [hsrc r hr hs]
      norm_num
  unfold aggregateRegions
  rw [aggregate_foldl, hfilter]
  simp

/-- Witness for `aggregate_includes_exactly_successful`: a single
successful region with the source's fixed outcome. -/
theorem aggregate_includes_exactly_successful_witness :
    aggregateRegions [⟨0, "Sample Text", 23/25⟩] =
      ((([⟨0, "Sample Text", 23/25⟩] : List RegionRecog).filter fun r => r.status = 0).foldl
          (fun a r => appendFragment a r.text) "",
       ((([⟨0, "Sample Text", 23/25⟩] : List RegionRecog).filter fun r => r.status = 0).map
          RegionRecog.conf).sum,
       (([⟨0, "Sample Text", 23/25⟩] : List RegionRecog).filter fun r => r.status = 0).length) :=
  aggregate_includes_exactly_successful _ (by
    intro r hr hs
    simp only [List.mem_singleton] at hr
    rw [hr])

/-- C8: a recovery attempt happens in `ai_handle_inference_error` exactly
when the just-incremented consecutive-error counter exceeds 5; and a run
of exactly 6 consecutive reported inference errors starting from a clear
counter performs exactly one recovery attempt (none occurs during the
first five, whatever the recovery outcomes are). -/
theorem recovery_trigger_iff :
    (∀ st ec orc, (ai_handle_inference_error st ec orc).2.2 = true ↔
        5 < (st.consecutiveErrors + 1) % U32) ∧
    (∀ st es, st.consecutiveErrors = 0 → es.length = 6 →
        (runErrors st es).2 = 1) := by
  constructor
  · intro st ec orc
    unfold ai_handle_inference_error
    by_cases h : 5 < (st.consecutiveErrors + 1) % U32
    · simp [h]
    · simp [h]
  · intro st es hc hlen
    rcases es with _ | ⟨⟨e1, o1⟩, _ | ⟨⟨e2, o2⟩, _ | ⟨⟨e3, o3⟩,
      _ | ⟨⟨e4, o4⟩, _ | ⟨⟨e5, o5⟩, _ | ⟨⟨e6, o6⟩, rest⟩⟩⟩⟩⟩⟩ <;>
      simp only [List.length_nil, List.length_cons] at hlen
    · omega
    · omega
    · omega
    · omega
    · omega
    · omega
    · have hrest : rest = [] := by
        cases rest with
        | nil => rfl
        | cons x xs => simp at hlen
      subst hrest
      obtain ⟨ec0, cc0, rn0⟩ := st
      subst hc
      simp [runErrors, ai_handle_inference_error, U32]

/-- Witness for `recovery_trigger_iff`: six consecutive errors with
code 6 and fully successful recovery make exactly one attempt. -/
theorem recovery_trigger_iff_witness :
    (runErrors ⟨0, 0, false⟩ (List.replicate 6 (6, ⟨true, true, true⟩))).2 = 1 :=
  recovery_trigger_iff.2 ⟨0, 0, false⟩ (List.replicate 6 (6, ⟨true, true, true⟩)) rfl rfl

theorem lor_shift_add {a b : ℕ} (k : ℕ) (hb : b < 2 ^ k) :
    a <<< k ||| b = a * 2 ^ k + b := by
  rw [Nat.shiftLeft_eq, Nat.mul_comm a (2 ^ k), ← Nat.mul_add_lt_is_or hb]

/-- C9: preprocessing a uniform-colour RGB565 source image reproduces
that colour at every destination pixel: each channel's 2x2 average of
four equal values is that value, and repacking the 5-6-5 channels of a
16-bit colour yields the colour back. -/
theorem ocr_preprocess_image_uniform (frame : FrameBuffer) (c : ℕ)
    (hc : c < 65536) (hsrc : ∀ i, frame.data i = c)
    (x y : ℕ) (_hx : x < OCR_INPUT_WIDTH) (_hy : y < OCR_INPUT_HEIGHT) :
    ocr_preprocess_image frame x y = c := by
  unfold ocr_preprocess_image ocr_preprocess_pixel
  simp only [hsrc]
  have hcm : c % 65536 = c := Nat.mod_eq_of_lt hc
  rw [hcm]
  have hr : (c / 2048 + c / 2048 + c / 2048 + c / 2048) / 4 = c / 2048 := by omega
  have hg : (c / 32 % 64 + c / 32 % 64 + c / 32 % 64 + c / 32 % 64) / 4 = c / 32 % 64 := by
    omega
  have hb : (c % 32 + c % 32 + c % 32 + c % 32) / 4 = c % 32 := by omega
  have p5 : (2 : ℕ) ^ 5 = 32 := by norm_num
  have p11 : (2 : ℕ) ^ 11 = 2048 := by norm_num
  have h1 : (c / 32 % 64) <<< 5 ||| c % 32 = (c / 32 % 64) * 2 ^ 5 + c % 32 :=
    lor_shift_add 5 (by rw [p5]; omega)
  have h2 : (c / 32 % 64) * 32 + c % 32 < 2 ^ 11 := by rw [p11]; omega
  simp only [hr, hg, hb]
  rw [Nat.lor_assoc, h1, p5, lor_shift_add 11 h2, p11]
  omega

/-- Witness for `ocr_preprocess_image_uniform`: the uniform colour
0xCAFE on the 640x480 source maps to itself at pixel (0, 0). -/
theorem ocr_preprocess_image_uniform_witness :
    ocr_preprocess_image ⟨fun _ => 51966, 614400, 0, true⟩ 0 0 = 51966 := by
  exact ocr_preprocess_image_uniform ⟨fun _ => 51966, 614400, 0, true⟩ 51966
    (by decide) (fun _ => rfl) 0 0 (by decide) (by decide)

theorem update_timing_counters (s : AiStats) (t : ℕ) :
    (ai_stats_update_timing s t).lowConfidenceCount = s.lowConfidenceCount ∧
    (ai_stats_update_timing s t).totalInferences = s.totalInferences ∧
    (ai_stats_update_timing s t).failedInferences = s.failedInferences := by
  refine ⟨?_, ?_, ?_⟩ <;>
    (unfold ai_stats_update_timing; dsimp only; split_ifs <;> rfl)

theorem update_quality_counters (s : AiStats) (θ conf : ℚ) (acc : ℕ) (h : conf < θ) :
    (ai_stats_update_quality s θ conf acc).lowConfidenceCount =
      (s.lowConfidenceCount + 1) % U32 ∧
    (ai_stats_update_quality s θ conf acc).totalInferences = s.totalInferences ∧
    (ai_stats_update_quality s θ conf acc).failedInferences = s.failedInferences := by
  refine ⟨?_, ?_, ?_⟩ <;>
    (unfold ai_stats_update_quality; dsimp only; split_ifs <;> rfl)

theorem process_frame_not_ready (pool : PoolState) (stats : AiStats)
    (frame : FrameBuffer) (orc : OcrOracles) (h : frame.ready = false) :
    ocr_process_frame pool stats frame orc = (-5, zeroResult orc.tick, pool, stats) := by
  unfold ocr_process_frame
  rw [h]
  rfl

theorem process_frame_alloc_fail (pool : PoolState) (stats : AiStats)
    (frame : FrameBuffer) (orc : OcrOracles) (p : PoolState)
    (hready : frame.ready = true)
    (hm : ai_memory_alloc pool (OCR_INPUT_WIDTH * OCR_INPUT_HEIGHT * 2) orc.tick = (none, p)) :
    ocr_process_frame pool stats frame orc = (-4, zeroResult orc.tick, p, stats) := by
  unfold ocr_process_frame
  rw [hready, hm]
  rfl

theorem process_frame_detect_fail (pool : PoolState) (stats : AiStats)
    (frame : FrameBuffer) (orc : OcrOracles) (p : PoolState) (pptr : ℕ)
    (hready : frame.ready = true)
    (hm : ai_memory_alloc pool (OCR_INPUT_WIDTH * OCR_INPUT_HEIGHT * 2) orc.tick = (some pptr, p))
    (hd : (ocr_detect_text p orc.tick orc.detectOk).1 < 0) :
    ocr_process_frame pool stats frame orc =
      ((ocr_detect_text p orc.tick orc.detectOk).1, zeroResult orc.tick,
        ai_memory_free (ocr_detect_text p orc.tick orc.detectOk).2.2 pptr, stats) := by
  unfold ocr_process_frame
  rw [hready, hm]
  dsimp only
  rw [if_pos hd]
  rfl

theorem process_frame_main (pool : PoolState) (stats : AiStats)
    (frame : FrameBuffer) (orc : OcrOracles) (p : PoolState) (pptr : ℕ)
    (hready : frame.ready = true)
    (hm : ai_memory_alloc pool (OCR_INPUT_WIDTH * OCR_INPUT_HEIGHT * 2) orc.tick = (some pptr, p))
    (hd : ¬ (ocr_detect_text p orc.tick orc.detectOk).1 < 0) :
    ocr_process_frame pool stats frame orc =
      processCore stats orc (ocr_detect_text p orc.tick orc.detectOk).1
        (ocr_detect_text p orc.tick orc.detectOk).2.1
        (ocr_detect_text p orc.tick orc.detectOk).2.2 pptr := by
  unfold ocr_process_frame
  rw [hready, hm]
  dsimp only
  rw [if_neg hd]
  rfl

theorem processCore_stats (stats : AiStats) (orc : OcrOracles) (detCount : ℤ)
    (boxes : List TextBbox) (pool2 : PoolState) (pptr : ℕ) :
    (processCore stats orc detCount boxes pool2 pptr).1 = 0 ∧
    (processCore stats orc detCount boxes pool2 pptr).2.2.2.lowConfidenceCount =
      stats.lowConfidenceCount ∧
    (processCore stats orc detCount boxes pool2 pptr).2.2.2.totalInferences =
      (stats.totalInferences + 1) % U32 := by
  exact ⟨rfl, rfl, rfl⟩

theorem ocr_process_frame_ok_stats (pool : PoolState) (stats : AiStats)
    (frame : FrameBuffer) (orc : OcrOracles)
    (h : (ocr_process_frame pool stats frame orc).1 = 0) :
    (ocr_process_frame pool stats frame orc).2.2.2.lowConfidenceCount =
      stats.lowConfidenceCount ∧
    (ocr_process_frame pool stats frame orc).2.2.2.totalInferences =
      (stats.totalInferences + 1) % U32 := by
  by_cases hr : frame.ready
  · rcases hm : ai_memory_alloc pool (OCR_INPUT_WIDTH * OCR_INPUT_HEIGHT * 2) orc.tick
      with ⟨o, p⟩
    cases o with
    | none =>
      rw [process_frame_alloc_fail pool stats frame orc p hr hm] at h
      have h4 : (-4 : ℤ) = 0 := h
      exact absurd h4 (by decide)
    | some pptr =>
      by_cases hd : (ocr_detect_text p orc.tick orc.detectOk).1 < 0
      · rw [process_frame_detect_fail pool stats frame orc p pptr hr hm hd] at h
        dsimp only at h
        omega
      · rw [process_frame_main pool stats frame orc p pptr hr hm hd]
        exact ⟨(processCore_stats _ _ _ _ _ _).2.1, (processCore_stats _ _ _ _ _ _).2.2⟩
  · rw [process_frame_not_ready pool stats frame orc (eq_false_of_ne_true hr)] at h
    have h5 : (-5 : ℤ) = 0 := h
    exact absurd h5 (by decide)

theorem alloc_free_fresh (st : PoolState) (size tick : ℕ) :
    ai_memory_free (allocResult st size tick) (st.allocatedSize + HEADER_SIZE) =
      freeResult (allocResult st size tick) st.allocatedSize := by
  have h0 : st.allocatedSize + HEADER_SIZE ≠ 0 := by
    simp [HEADER_SIZE]
  have hs : ¬ st.allocatedSize + HEADER_SIZE < HEADER_SIZE := by omega
  have hsub : st.allocatedSize + HEADER_SIZE - HEADER_SIZE = st.allocatedSize := by
    omega
  have hm : magicAt (allocResult st size tick) (st.allocatedSize + HEADER_SIZE - HEADER_SIZE) =
      MEMORY_MAGIC := by
    rw [hsub]
    exact magicAt_allocResult_self st size tick
  have hb : st.allocatedSize + HEADER_SIZE - HEADER_SIZE ∈ (allocResult st size tick).blocks := by
    rw [hsub]
    exact List.mem_cons_self _ _
  rw [free_succ _ _ h0 hs hm hb, hsub]

theorem roundtrip_allocatedSize (st : PoolState) (size tick : ℕ)
    (hbound : st.allocatedSize + (HEADER_SIZE + alignUp size) % U32 < U32) :
    (freeResult (allocResult st size tick) st.allocatedSize).allocatedSize =
      st.allocatedSize := by
  show ((allocResult st size tick).allocatedSize +
      (U32 - totalAt (allocResult st size tick) st.allocatedSize)) % U32 = st.allocatedSize
  rw [totalAt_allocResult_self]
  show ((st.allocatedSize + (HEADER_SIZE + alignUp size) % U32) % U32 +
      (U32 - (HEADER_SIZE + alignUp size) % U32)) % U32 = st.allocatedSize
  simp only [U32] at *
  omega

theorem ocr_detect_text_ok (pool : PoolState) (tick : ℕ)
    (hcap : pool.allocatedSize + 1040 ≤ AI_MEMORY_POOL_SIZE) :
    ocr_detect_text pool tick true =
      (1, [⟨80, 60, 160, 60, 9/10, 0⟩],
        freeResult (allocResult pool 1024 tick) pool.allocatedSize) := by
  have hal : alignUp 1024 = 1024 := by decide
  have hg : ¬ AI_MEMORY_POOL_SIZE < (pool.allocatedSize + (HEADER_SIZE + alignUp 1024)) % U32 := by
    rw [hal]
    simp only [AI_MEMORY_POOL_SIZE, U32, HEADER_SIZE] at *
    omega
  unfold ocr_detect_text
  rw [alloc_succ pool 1024 tick (by decide) hg]
  dsimp only
  rw [if_pos rfl, alloc_free_fresh]
  rfl

theorem ocr_recognize_text_box (pool : PoolState) (tick : ℕ) (npuOk : Bool)
    (hcap : pool.allocatedSize + 19216 ≤ AI_MEMORY_POOL_SIZE) :
    ocr_recognize_text pool ⟨80, 60, 160, 60, 9/10, 0⟩ tick npuOk =
      ((if npuOk then ⟨0, "Sample Text", 23/25⟩ else ⟨-6, "", 0⟩),
        freeResult (allocResult pool 19200 tick) pool.allocatedSize) := by
  have hal : alignUp 19200 = 19200 := by decide
  have hg : ¬ AI_MEMORY_POOL_SIZE < (pool.allocatedSize + (HEADER_SIZE + alignUp 19200)) % U32 := by
    rw [hal]
    simp only [AI_MEMORY_POOL_SIZE, U32, HEADER_SIZE] at *
    omega
  unfold ocr_recognize_text
  have hsz : (TextBbox.width ⟨80, 60, 160, 60, 9/10, 0⟩ *
      TextBbox.height ⟨80, 60, 160, 60, 9/10, 0⟩ * 2) = 19200 := rfl
  rw [hsz, alloc_succ pool 19200 tick (by decide) hg]
  dsimp only
  rw [alloc_free_fresh]
  cases npuOk <;> rfl

theorem allocResult_allocatedSize_big (pool : PoolState) (tick : ℕ)
    (hcap : pool.allocatedSize + 172832 ≤ AI_MEMORY_POOL_SIZE) :
    (allocResult pool (OCR_INPUT_WIDTH * OCR_INPUT_HEIGHT * 2) tick).allocatedSize =
      pool.allocatedSize + 153616 := by
  show (pool.allocatedSize +
      (HEADER_SIZE + alignUp (OCR_INPUT_WIDTH * OCR_INPUT_HEIGHT * 2)) % U32) % U32 = _
  have h1 : (HEADER_SIZE + alignUp (OCR_INPUT_WIDTH * OCR_INPUT_HEIGHT * 2)) % U32 = 153616 := by
    decide
  rw [h1]
  simp only [AI_MEMORY_POOL_SIZE] at hcap
  simp only [U32]
  omega

theorem process_frame_to_core (pool : PoolState) (stats : AiStats)
    (frame : FrameBuffer) (orc : OcrOracles)
    (hready : frame.ready = true) (hdet : orc.detectOk = true)
    (hcap : pool.allocatedSize + 172832 ≤ AI_MEMORY_POOL_SIZE) :
    ocr_process_frame pool stats frame orc =
      processCore stats orc 1 [⟨80, 60, 160, 60, 9/10, 0⟩]
        (freeResult
          (allocResult (allocResult pool (OCR_INPUT_WIDTH * OCR_INPUT_HEIGHT * 2) orc.tick)
            1024 orc.tick)
          (allocResult pool (OCR_INPUT_WIDTH * OCR_INPUT_HEIGHT * 2) orc.tick).allocatedSize)
        (pool.allocatedSize + HEADER_SIZE) := by
  have hsz0 : (OCR_INPUT_WIDTH * OCR_INPUT_HEIGHT * 2 : ℕ) ≠ 0 := by decide
  have hg : ¬ AI_MEMORY_POOL_SIZE <
      (pool.allocatedSize + (HEADER_SIZE + alignUp (OCR_INPUT_WIDTH * OCR_INPUT_HEIGHT * 2))) % U32 := by
    have h2 : HEADER_SIZE + alignUp (OCR_INPUT_WIDTH * OCR_INPUT_HEIGHT * 2) = 153616 := by decide
    rw [h2]
    simp only [AI_MEMORY_POOL_SIZE, U32] at *
    omega
  have hm := alloc_succ pool (OCR_INPUT_WIDTH * OCR_INPUT_HEIGHT * 2) orc.tick hsz0 hg
  have hA := allocResult_allocatedSize_big pool orc.tick hcap
  have hdok : ocr_detect_text
      (allocResult pool (OCR_INPUT_WIDTH * OCR_INPUT_HEIGHT * 2) orc.tick) orc.tick true =
      (1, [⟨80, 60, 160, 60, 9/10, 0⟩],
        freeResult
          (allocResult (allocResult pool (OCR_INPUT_WIDTH * OCR_INPUT_HEIGHT * 2) orc.tick)
            1024 orc.tick)
          (allocResult pool (OCR_INPUT_WIDTH * OCR_INPUT_HEIGHT * 2) orc.tick).allocatedSize) := by
    apply ocr_detect_text_ok
    rw [hA]
    simp only [AI_MEMORY_POOL_SIZE] at *
    omega
  have hd : ¬ (ocr_detect_text (allocResult pool (OCR_INPUT_WIDTH * OCR_INPUT_HEIGHT * 2) orc.tick)
      orc.tick orc.detectOk).1 < 0 := by
    rw [hdet, hdok]
    show ¬ (1 : ℤ) < 0
    decide
  rw [process_frame_main pool stats frame orc _ _ hready hm hd, hdet, hdok]

theorem recogLoop_one_box (orc : OcrOracles) (q : PoolState)
    (hqcap : q.allocatedSize + 19216 ≤ AI_MEMORY_POOL_SIZE) :
    recogLoop orc [⟨80, 60, 160, 60, 9/10, 0⟩] q =
      (freeResult (allocResult q 19200 orc.tick) q.allocatedSize,
        [if orc.recogOk 0 then (⟨0, "Sample Text", 23/25⟩ : RegionRecog) else ⟨-6, "", 0⟩]) := by
  unfold recogLoop
  simp only [List.foldl_cons, List.foldl_nil]
  rw [show (([] : List RegionRecog)).length = 0 from rfl,
    ocr_recognize_text_box q orc.tick (orc.recogOk 0) hqcap]
  rfl

set_option maxRecDepth 8192 in
theorem processCore_one_box_fail (stats : AiStats) (orc : OcrOracles) (q : PoolState) (pptr : ℕ)
    (hrec : orc.recogOk 0 = false)
    (hqcap : q.allocatedSize + 19216 ≤ AI_MEMORY_POOL_SIZE) :
    (processCore stats orc 1 [⟨80, 60, 160, 60, 9/10, 0⟩] q pptr).1 = 0 ∧
    (processCore stats orc 1 [⟨80, 60, 160, 60, 9/10, 0⟩] q pptr).2.1.text = "" ∧
    (processCore stats orc 1 [⟨80, 60, 160, 60, 9/10, 0⟩] q pptr).2.1.confidence = 0 ∧
    (processCore stats orc 1 [⟨80, 60, 160, 60, 9/10, 0⟩] q pptr).2.2.2.failedInferences =
      (stats.failedInferences + 1) % U32 ∧
    (processCore stats orc 1 [⟨80, 60, 160, 60, 9/10, 0⟩] q pptr).2.2.2.totalInferences =
      (stats.totalInferences + 1) % U32 := by
  unfold processCore
  have htake : (([⟨80, 60, 160, 60, 9/10, 0⟩] : List TextBbox)).take 16 =
      [⟨80, 60, 160, 60, 9/10, 0⟩] := rfl
  rw [htake, recogLoop_one_box orc q hqcap, hrec]
  have hagg : aggregateRegions
      [if false = true then (⟨0, "Sample Text", 23/25⟩ : RegionRecog) else ⟨-6, "", 0⟩] =
      ("", 0, 0) := by
    simp [aggregateRegions, aggregateStep]
  dsimp only
  rw [hagg]
  have h00 : ¬ (0 : ℕ) < (("", (0 : ℚ), 0) : String × ℚ × ℕ).2.2 := by decide
  simp only [if_neg h00]
  refine ⟨?_, ?_, ?_, ?_, ?_⟩ <;> first | rfl | trivial

set_option maxRecDepth 8192 in
theorem processCore_one_box_succ (stats : AiStats) (orc : OcrOracles) (q : PoolState) (pptr : ℕ)
    (hrec : orc.recogOk 0 = true)
    (hqcap : q.allocatedSize + 19216 ≤ AI_MEMORY_POOL_SIZE) :
    (processCore stats orc 1 [⟨80, 60, 160, 60, 9/10, 0⟩] q pptr).1 = 0 ∧
    (processCore stats orc 1 [⟨80, 60, 160, 60, 9/10, 0⟩] q pptr).2.1.confidence = 23/25 := by
  unfold processCore
  have htake : (([⟨80, 60, 160, 60, 9/10, 0⟩] : List TextBbox)).take 16 =
      [⟨80, 60, 160, 60, 9/10, 0⟩] := rfl
  rw [htake, recogLoop_one_box orc q hqcap, hrec]
  have hacc : (⟨0, "Sample Text", 23/25⟩ : RegionRecog).status = 0 ∧
      (1 : ℚ)/2 < (⟨0, "Sample Text", 23/25⟩ : RegionRecog).conf := ⟨rfl, by norm_num⟩
  have hstep : aggregateStep ("", 0, 0) ⟨0, "Sample Text", 23/25⟩ =
      (appendFragment "" "Sample Text", 0 + 23/25, 0 + 1) := by
    unfold aggregateStep
    rw [if_pos hacc]
  have hagg : aggregateRegions
      [if true = true then (⟨0, "Sample Text", 23/25⟩ : RegionRecog) else ⟨-6, "", 0⟩] =
      (appendFragment "" "Sample Text", 0 + 23/25, 0 + 1) := by
    show aggregateRegions [⟨0, "Sample Text", 23/25⟩] = _
    unfold aggregateRegions
    rw [List.foldl_cons, hstep]
    rfl
  dsimp only
  rw [hagg]
  have h01 : (0 : ℕ) <
      ((appendFragment "" "Sample Text", (0 : ℚ) + 23/25, 0 + 1) : String × ℚ × ℕ).2.2 := by
    show (0 : ℕ) < 0 + 1
    decide
  simp only [if_pos h01]
  refine ⟨by first | rfl | trivial, ?_⟩
  show ((0 : ℚ) + 23/25) / (((0 + 1 : ℕ) : ℚ)) = 23/25
  norm_num

/-- C5: when `ocr_process_frame` accepts zero text regions for a valid
ready frame (the single detected region's recognition fails, so nothing
passes the acceptance test), it still returns success (0) with an empty
text buffer and zero confidence in the result, and the cycle increments
`failed_inferences` (while still counting in `total_inferences`), rather
than returning an error code.  The capacity hypothesis lets the scratch
allocations of the pipeline succeed. -/
theorem ocr_process_frame_zero_regions_success (pool : PoolState) (stats : AiStats)
    (frame : FrameBuffer) (orc : OcrOracles)
    (hready : frame.ready = true) (hdet : orc.detectOk = true)
    (hrec : orc.recogOk 0 = false)
    (hcap : pool.allocatedSize + 172832 ≤ AI_MEMORY_POOL_SIZE) :
    (ocr_process_frame pool stats frame orc).1 = 0 ∧
    (ocr_process_frame pool stats frame orc).2.1.text = "" ∧
    (ocr_process_frame pool stats frame orc).2.1.confidence = 0 ∧
    (ocr_process_frame pool stats frame orc).2.2.2.failedInferences =
      (stats.failedInferences + 1) % U32 ∧
    (ocr_process_frame pool stats frame orc).2.2.2.totalInferences =
      (stats.totalInferences + 1) % U32 := by
  rw [process_frame_to_core pool stats frame orc hready hdet hcap]
  apply processCore_one_box_fail stats orc _ _ hrec
  have hA := allocResult_allocatedSize_big pool orc.tick hcap
  have h1040 : (HEADER_SIZE + alignUp 1024) % U32 = 1040 := by decide
  have hbound : (allocResult pool (OCR_INPUT_WIDTH * OCR_INPUT_HEIGHT * 2)
      orc.tick).allocatedSize + (HEADER_SIZE + alignUp 1024) % U32 < U32 := by
    rw [hA, h1040]
    simp only [AI_MEMORY_POOL_SIZE, U32] at *
    omega
  rw [roundtrip_allocatedSize _ 1024 orc.tick hbound, hA]
  simp only [AI_MEMORY_POOL_SIZE] at *
  omega

/-- Witness for `ocr_process_frame_zero_regions_success`: fresh pool and
statistics, a ready all-black frame, detection succeeding, recognition
failing. -/
theorem ocr_process_frame_zero_regions_success_witness :
    (ocr_process_frame initState ai_stats_reset ⟨fun _ => 0, 614400, 0, true⟩
        ⟨true, fun _ => false, fun _ => 0, 0⟩).1 = 0 ∧
    (ocr_process_frame initState ai_stats_reset ⟨fun _ => 0, 614400, 0, true⟩
        ⟨true, fun _ => false, fun _ => 0, 0⟩).2.1.text = "" ∧
    (ocr_process_frame initState ai_stats_reset ⟨fun _ => 0, 614400, 0, true⟩
        ⟨true, fun _ => false, fun _ => 0, 0⟩).2.1.confidence = 0 ∧
    (ocr_process_frame initState ai_stats_reset ⟨fun _ => 0, 614400, 0, true⟩
        ⟨true, fun _ => false, fun _ => 0, 0⟩).2.2.2.failedInferences =
      (ai_stats_reset.failedInferences + 1) % U32 ∧
    (ocr_process_frame initState ai_stats_reset ⟨fun _ => 0, 614400, 0, true⟩
        ⟨true, fun _ => false, fun _ => 0, 0⟩).2.2.2.totalInferences =
      (ai_stats_reset.totalInferences + 1) % U32 :=
  ocr_process_frame_zero_regions_success initState ai_stats_reset
    ⟨fun _ => 0, 614400, 0, true⟩ ⟨true, fun _ => false, fun _ => 0, 0⟩
    rfl rfl rfl (by decide)

/-- C4 counterexample: the claim as stated is false on the code.  On this
reachable cycle (fresh pool and statistics, ready frame, all accelerator
calls succeeding) the result carries the code's fixed confidence
0.92 < 0.95, so it is not forwarded — but `low_confidence_count` rises
from 0 to 2, not by exactly 1: `ai_stats_update_quality` increments it
once and the task loop's gating branch increments it again. -/
theorem low_confidence_double_increment_counterexample :
    (ai_task_cycle initState ai_stats_reset defaultConfidenceThreshold
        ⟨fun _ => 0, 614400, 0, true⟩ ⟨true, fun _ => true, fun _ => 0, 0⟩ 5000).2.2 = false ∧
    (ai_task_cycle initState ai_stats_reset defaultConfidenceThreshold
        ⟨fun _ => 0, 614400, 0, true⟩ ⟨true, fun _ => true, fun _ => 0, 0⟩
        5000).2.1.lowConfidenceCount = 2 := by
  have hpr := process_frame_to_core initState ai_stats_reset
    ⟨fun _ => 0, 614400, 0, true⟩ ⟨true, fun _ => true, fun _ => 0, 0⟩ rfl rfl (by decide)
  obtain ⟨h0x, hconfx⟩ := processCore_one_box_succ ai_stats_reset
    ⟨true, fun _ => true, fun _ => 0, 0⟩
    (freeResult
      (allocResult (allocResult initState (OCR_INPUT_WIDTH * OCR_INPUT_HEIGHT * 2)
        (OcrOracles.tick ⟨true, fun _ => true, fun _ => 0, 0⟩)) 1024
        (OcrOracles.tick ⟨true, fun _ => true, fun _ => 0, 0⟩))
      (allocResult initState (OCR_INPUT_WIDTH * OCR_INPUT_HEIGHT * 2)
        (OcrOracles.tick ⟨true, fun _ => true, fun _ => 0, 0⟩)).allocatedSize)
    (initState.allocatedSize + HEADER_SIZE) rfl (by decide)
  have h0 : (ocr_process_frame initState ai_stats_reset ⟨fun _ => 0, 614400, 0, true⟩
      ⟨true, fun _ => true, fun _ => 0, 0⟩).1 = 0 := by
    rw [hpr]; exact h0x
  have hconf : (ocr_process_frame initState ai_stats_reset ⟨fun _ => 0, 614400, 0, true⟩
      ⟨true, fun _ => true, fun _ => 0, 0⟩).2.1.confidence = 23/25 := by
    rw [hpr]; exact hconfx
  have hlt : (ocr_process_frame initState ai_stats_reset ⟨fun _ => 0, 614400, 0, true⟩
      ⟨true, fun _ => true, fun _ => 0, 0⟩).2.1.confidence < defaultConfidenceThreshold := by
    rw [hconf]
    norm_num [defaultConfidenceThreshold]
  unfold ai_task_cycle
  dsimp only
  rw [if_pos h0, if_neg (not_le.2 hlt)]
  refine ⟨rfl, ?_⟩
  show ((ai_stats_update_quality (ai_stats_update_timing
      (ocr_process_frame initState ai_stats_reset ⟨fun _ => 0, 614400, 0, true⟩
        ⟨true, fun _ => true, fun _ => 0, 0⟩).2.2.2 5000) defaultConfidenceThreshold
      (ocr_process_frame initState ai_stats_reset ⟨fun _ => 0, 614400, 0, true⟩
        ⟨true, fun _ => true, fun _ => 0, 0⟩).2.1.confidence
      (if 0 < (ocr_process_frame initState ai_stats_reset ⟨fun _ => 0, 614400, 0, true⟩
        ⟨true, fun _ => true, fun _ => 0, 0⟩).2.1.charCount then 95 else 0)
      ).lowConfidenceCount + 1) % U32 = 2
  rw [(update_quality_counters _ _ _ _ hlt).1, (update_timing_counters _ _).1]
  have hlow : (ocr_process_frame initState ai_stats_reset ⟨fun _ => 0, 614400, 0, true⟩
      ⟨true, fun _ => true, fun _ => 0, 0⟩).2.2.2.lowConfidenceCount = 0 := by
    rw [hpr]; rfl
  rw [hlow]
  decide

/-- C4 (amended): when a processed frame yields a result whose confidence
is below the default threshold 0.95, the result is not forwarded to the
synthesis (audio) queue, the cycle is still counted in the statistics
(`total_inferences` increments by 1), and `low_confidence_count`
increments by exactly 2 — once inside `ai_stats_update_quality` and once
in the task loop's gating branch. -/
theorem low_confidence_cycle_amended (pool : PoolState) (stats : AiStats)
    (frame : FrameBuffer) (orc : OcrOracles) (timeUs : ℕ)
    (h0 : (ocr_process_frame pool stats frame orc).1 = 0)
    (hconf : (ocr_process_frame pool stats frame orc).2.1.confidence <
      defaultConfidenceThreshold) :
    (ai_task_cycle pool stats defaultConfidenceThreshold frame orc timeUs).2.2 = false ∧
    (ai_task_cycle pool stats defaultConfidenceThreshold frame orc
        timeUs).2.1.lowConfidenceCount = (stats.lowConfidenceCount + 2) % U32 ∧
    (ai_task_cycle pool stats defaultConfidenceThreshold frame orc
        timeUs).2.1.totalInferences = (stats.totalInferences + 1) % U32 := by
  obtain ⟨hlow, htot⟩ := ocr_process_frame_ok_stats pool stats frame orc h0
  unfold ai_task_cycle
  dsimp only
  rw [if_pos h0, if_neg (not_le.2 hconf)]
  refine ⟨rfl, ?_, ?_⟩
  · show ((ai_stats_update_quality (ai_stats_update_timing
        (ocr_process_frame pool stats frame orc).2.2.2 timeUs) defaultConfidenceThreshold
        (ocr_process_frame pool stats frame orc).2.1.confidence
        (if 0 < (ocr_process_frame pool stats frame orc).2.1.charCount then 95 else 0)
        ).lowConfidenceCount + 1) % U32 = (stats.lowConfidenceCount + 2) % U32
    rw [(update_quality_counters _ _ _ _ hconf).1, (update_timing_counters _ _).1, hlow]
    simp only [U32]
    omega
  · show (ai_stats_update_quality (ai_stats_update_timing
        (ocr_process_frame pool stats frame orc).2.2.2 timeUs) defaultConfidenceThreshold
        (ocr_process_frame pool stats frame orc).2.1.confidence
        (if 0 < (ocr_process_frame pool stats frame orc).2.1.charCount then 95 else 0)
        ).totalInferences = (stats.totalInferences + 1) % U32
    rw [(update_quality_counters _ _ _ _ hconf).2.1, (update_timing_counters _ _).2.1, htot]

/-- Witness for `low_confidence_cycle_amended`: the concrete reachable
cycle of `low_confidence_double_increment_counterexample`. -/
theorem low_confidence_cycle_amended_witness :
    (ai_task_cycle initState ai_stats_reset defaultConfidenceThreshold
        ⟨fun _ => 0, 614400, 0, true⟩ ⟨true, fun _ => true, fun _ => 0, 0⟩ 5000).2.2 = false ∧
    (ai_task_cycle initState ai_stats_reset defaultConfidenceThreshold
        ⟨fun _ => 0, 614400, 0, true⟩ ⟨true, fun _ => true, fun _ => 0, 0⟩
        5000).2.1.lowConfidenceCount = (ai_stats_reset.lowConfidenceCount + 2) % U32 ∧
    (ai_task_cycle initState ai_stats_reset defaultConfidenceThreshold
        ⟨fun _ => 0, 614400, 0, true⟩ ⟨true, fun _ => true, fun _ => 0, 0⟩
        5000).2.1.totalInferences = (ai_stats_reset.totalInferences + 1) % U32 := by
  have hpr := process_frame_to_core initState ai_stats_reset
    ⟨fun _ => 0, 614400, 0, true⟩ ⟨true, fun _ => true, fun _ => 0, 0⟩ rfl rfl (by decide)
  obtain ⟨h0x, hconfx⟩ := processCore_one_box_succ ai_stats_reset
    ⟨true, fun _ => true, fun _ => 0, 0⟩
    (freeResult
      (allocResult (allocResult initState (OCR_INPUT_WIDTH * OCR_INPUT_HEIGHT * 2)
        (OcrOracles.tick ⟨true, fun _ => true, fun _ => 0, 0⟩)) 1024
        (OcrOracles.tick ⟨true, fun _ => true, fun _ => 0, 0⟩))
      (allocResult initState (OCR_INPUT_WIDTH * OCR_INPUT_HEIGHT * 2)
        (OcrOracles.tick ⟨true, fun _ => true, fun _ => 0, 0⟩)).allocatedSize)
    (initState.allocatedSize + HEADER_SIZE) rfl (by decide)
  exact low_confidence_cycle_amended initState ai_stats_reset
    ⟨fun _ => 0, 614400, 0, true⟩ ⟨true, fun _ => true, fun _ => 0, 0⟩ 5000
    (by rw [hpr]; exact h0x)
    (by rw [hpr, hconfx]; norm_num [defaultConfidenceThreshold])
